import Mathlib

/-!
Verification of the read-only SQL governance core of an MCP SQL Server
bridge.  The definitions below are a shallow embedding of the TypeScript
source: the query validator (`src/validators/query-validator.ts`), the
execution pipeline and statement builders (`src/db/execute.ts`), and the
error-message sanitizer (`src/utils/errors.ts`).  SQL texts are modelled
as `List Char` (the `String.data` of the input); the handful of regular
expressions used by the source are transcribed as explicit character
scanners with the same semantics on inputs free of the exotic Unicode
line separators U+2028/U+2029 (all inputs considered here are ASCII).
-/

set_option maxRecDepth 8000
set_option linter.unusedVariables false

namespace McpSql

/-- The apostrophe character, written via its code point. -/
def squote : Char := Char.ofNat 39

/-- JavaScript regex `\s` on the ASCII range: space, tab, LF, CR, VT, FF. -/
def isJsSpace (c : Char) : Bool :=
  c = ' ' || c = '\t' || c = '\n' || c = '\r' || c = '\x0b' || c = '\x0c'

/-- JavaScript regex `\w`: ASCII letters, digits and underscore. -/
def isWordChar (c : Char) : Bool :=
  ('a' ≤ c && c ≤ 'z') || ('A' ≤ c && c ≤ 'Z') || ('0' ≤ c && c ≤ '9') || c = '_'

/-- Line terminators recognised by JavaScript `.` and multiline `$` (ASCII part). -/
def isLineTerm (c : Char) : Bool :=
  c = '\n' || c = '\r'

/-- Case-insensitive match of `pat` against a prefix of `s`
(the semantics of a regex literal under the `i` flag). -/
def matchesCI : List Char → List Char → Bool
  | [], _ => true
  | _ :: _, [] => false
  | p :: ps, c :: cs => (c.toLower == p.toLower) && matchesCI ps cs

/-- Skip to the next line terminator (keeping it): the characters a
`--.*$` match consumes after the two dashes. -/
def skipToEOL : List Char → List Char
  | [] => []
  | c :: rest => if isLineTerm c then c :: rest else skipToEOL rest

/-- The replace of the global multiline regex `--.*$` by the empty
string: on every line, drop from the first
`--` to the end of the line.  Fuel-indexed; `fuel = length` suffices
because every step consumes at least one character. -/
def removeLineCommentsAux : Nat → List Char → List Char
  | 0, s => s
  | _ + 1, [] => []
  | fuel + 1, '-' :: '-' :: rest => removeLineCommentsAux fuel (skipToEOL rest)
  | fuel + 1, c :: rest => c :: removeLineCommentsAux fuel rest

def removeLineComments (s : List Char) : List Char :=
  removeLineCommentsAux s.length s

/-- Position past the first closing `*/`, if any. -/
def dropThroughClose : List Char → Option (List Char)
  | [] => none
  | '*' :: '/' :: rest => some rest
  | _ :: rest => dropThroughClose rest

/-- `result.replace(/\/\*[\s\S]*?\*\//g, "")`: drop each `/*` through the
first subsequent `*/`; a `/*` with no closing `*/` anywhere is left as is
(the non-greedy regex then has no match). -/
def removeBlockCommentsAux : Nat → List Char → List Char
  | 0, s => s
  | _ + 1, [] => []
  | fuel + 1, '/' :: '*' :: rest =>
    match dropThroughClose rest with
    | some rest2 => removeBlockCommentsAux fuel rest2
    | none => '/' :: '*' :: rest
  | fuel + 1, c :: rest => c :: removeBlockCommentsAux fuel rest

def removeBlockComments (s : List Char) : List Char :=
  removeBlockCommentsAux s.length s

/-- `removeComments` from the validator: line comments first, then block
comments, exactly as the two successive `replace` calls in the source. -/
def removeComments (s : List Char) : List Char :=
  removeBlockComments (removeLineComments s)

/-- `replace(/\s+/g, " ")`: collapse every whitespace run to one space.
The boolean argument records whether the previous character was part of a
whitespace run. -/
def collapseWsAux : Bool → List Char → List Char
  | _, [] => []
  | prevSpace, c :: rest =>
    if isJsSpace c then
      if prevSpace then collapseWsAux true rest
      else ' ' :: collapseWsAux true rest
    else c :: collapseWsAux false rest

def collapseWs (s : List Char) : List Char :=
  collapseWsAux false s

/-- `String.prototype.trim`: strip whitespace from both ends. -/
def trimList (s : List Char) : List Char :=
  (((s.dropWhile isJsSpace).reverse).dropWhile isJsSpace).reverse

/-- `normalizeQuery`: strip comments, collapse whitespace, trim, uppercase. -/
def normalizeQuery (s : List Char) : List Char :=
  (trimList (collapseWs (removeComments s))).map Char.toUpper

/-- The blocklist of `query-validator.ts`, in source order. -/
def BLOCKED_KEYWORDS : List String :=
  ["INSERT", "UPDATE", "DELETE", "DROP", "ALTER", "CREATE", "TRUNCATE",
   "EXEC", "EXECUTE", "MERGE", "GRANT", "REVOKE", "DENY", "BACKUP",
   "RESTORE", "BULK", "OPENROWSET", "OPENDATASOURCE", "XP_",
   "SP_CONFIGURE", "SP_ADDLOGIN", "SP_DROPLOGIN", "DBCC", "SHUTDOWN", "KILL"]

/-- The leading-keyword allowlist of `query-validator.ts`. -/
def ALLOWED_START_KEYWORDS : List String :=
  ["SELECT", "WITH", "SET SHOWPLAN"]

/-- `startsWithAllowed`: JavaScript `String.prototype.startsWith` over the
allowlist (the normalized text is already uppercase, as are the keywords). -/
def startsWithAllowed (n : List Char) : Bool :=
  ALLOWED_START_KEYWORDS.any fun kw => kw.data.isPrefixOf n

/-- Word boundary on the left of position `i`: start of input or a
non-word character before it (regex `\b` next to a word character). -/
def boundaryBefore (s : List Char) (i : Nat) : Bool :=
  match i with
  | 0 => true
  | j + 1 =>
    match s.drop j with
    | c :: _ => !isWordChar c
    | [] => true

/-- Word boundary on the right of position `i`: end of input or a
non-word character at it. -/
def boundaryAfterAt (s : List Char) (i : Nat) : Bool :=
  match s.drop i with
  | c :: _ => !isWordChar c
  | [] => true

/-- Test of `new RegExp("\\b" ++ kw ++ "\\b", "i")` against `s`, for the
keywords of the blocklist (each begins and ends with a word character). -/
def wordBoundaryOccurs (kw : List Char) (s : List Char) : Bool :=
  (List.range (s.length + 1)).any fun i =>
    matchesCI kw (s.drop i) && boundaryBefore s i && boundaryAfterAt s (i + kw.length)

/-- `findBlockedKeyword`: first blocklist entry matching at a word boundary. -/
def findBlockedKeyword (n : List Char) : Option String :=
  BLOCKED_KEYWORDS.find? fun kw => wordBoundaryOccurs kw.data n

/-- Write keywords of the stacked-statement bypass pattern, in source order. -/
def STACKED_WRITE_KEYWORDS : List String :=
  ["INSERT", "UPDATE", "DELETE", "DROP", "ALTER", "CREATE", "TRUNCATE", "EXEC"]

/-- Test of `/;\s*(INSERT|UPDATE|DELETE|DROP|ALTER|CREATE|TRUNCATE|EXEC)/i`. -/
def stackedQueryPat (s : List Char) : Bool :=
  (List.range s.length).any fun i =>
    match s.drop i with
    | ';' :: rest =>
      STACKED_WRITE_KEYWORDS.any fun kw => matchesCI kw.data (rest.dropWhile isJsSpace)
    | _ => false

/-- The `\s+[#@]?\w+` tail shared by both INTO patterns; with
`requireParen` also the closing `\s*\(` of `/\bINTO\s+[#@]?\w+\s*\(/i`. -/
def intoTarget (r0 : List Char) (requireParen : Bool) : Bool :=
  match r0 with
  | [] => false
  | c0 :: _ =>
    if !isJsSpace c0 then false
    else
      let r1 := r0.dropWhile isJsSpace
      let r2 :=
        match r1 with
        | '#' :: t => t
        | '@' :: t => t
        | _ => r1
      match r2 with
      | [] => false
      | c :: _ =>
        if !isWordChar c then false
        else if !requireParen then true
        else
          match (r2.dropWhile isWordChar).dropWhile isJsSpace with
          | '(' :: _ => true
          | _ => false

/-- Test of `/\bINTO\s+[#@]?\w+\s*\(/i`. -/
def intoParenPat (s : List Char) : Bool :=
  (List.range s.length).any fun i =>
    boundaryBefore s i && matchesCI "INTO".data (s.drop i) && intoTarget (s.drop (i + 4)) true

/-- Test of `/\bSELECT\b.*\bINTO\s+[#@]?\w+/i` (the `.` of the regex does
not cross line terminators). -/
def selectIntoPat (s : List Char) : Bool :=
  (List.range (s.length + 1)).any fun i =>
    boundaryBefore s i && matchesCI "SELECT".data (s.drop i) && boundaryAfterAt s (i + 6) &&
    ((List.range (s.length + 1)).any fun j =>
      decide (i + 6 ≤ j) &&
      (((s.drop (i + 6)).take (j - (i + 6))).all fun c => !isLineTerm c) &&
      boundaryBefore s j && matchesCI "INTO".data (s.drop j) && intoTarget (s.drop (j + 4)) false)

/-- Test of `/\bFOR\s+(UPDATE|DELETE)\b/i`. -/
def forUpdatePat (s : List Char) : Bool :=
  (List.range s.length).any fun i =>
    boundaryBefore s i && matchesCI "FOR".data (s.drop i) &&
    (match s.drop (i + 3) with
     | [] => false
     | c0 :: _ =>
       isJsSpace c0 &&
       (let r1 := (s.drop (i + 3)).dropWhile isJsSpace
        (matchesCI "UPDATE".data r1 || matchesCI "DELETE".data r1) &&
        (match r1.drop 6 with
         | [] => true
         | c :: _ => !isWordChar c)))

/-- Test of `/\bOPENQUERY\s*\(/i`. -/
def openQueryPat (s : List Char) : Bool :=
  (List.range s.length).any fun i =>
    boundaryBefore s i && matchesCI "OPENQUERY".data (s.drop i) &&
    (match (s.drop (i + 9)).dropWhile isJsSpace with
     | '(' :: _ => true
     | _ => false)

/-- `findBypassPattern`: the five patterns in source order, first match wins.
NOTE: in `validateQuery` the source applies this to the RAW query string,
not to the comment-stripped normalized text. -/
def findBypassPattern (q : List Char) : Option String :=
  if stackedQueryPat q then some "Stacked query with write operation"
  else if intoParenPat q then some "SELECT INTO creates tables"
  else if selectIntoPat q then some "SELECT INTO creates tables"
  else if forUpdatePat q then some "FOR UPDATE/DELETE is not allowed"
  else if openQueryPat q then some "OPENQUERY is not allowed"
  else none

/-- `ValidationResult` of `query-validator.ts`. -/
structure ValidationResult where
  valid : Bool
  reason : Option String
  queryType : Option String
deriving Repr, DecidableEq

/-- `validateQuery`: empty check, allowlist check and blocklist scan on the
normalized text, bypass scan on the raw text, in source order. -/
def validateQuery (query : String) : ValidationResult :=
  let normalized := normalizeQuery query.data
  if normalized.isEmpty then
    { valid := false, reason := some "Query is empty", queryType := some "EMPTY" }
  else if !startsWithAllowed normalized then
    let firstWord := String.mk (normalized.takeWhile fun c => c != ' ')
    { valid := false
      reason := some ("Query must start with SELECT or WITH (CTE). Found: " ++ firstWord)
      queryType := some firstWord }
  else
    match findBlockedKeyword normalized with
    | some kw =>
      { valid := false
        reason := some ("Keyword \"" ++ kw ++ "\" is not allowed in READONLY mode")
        queryType := some kw }
    | none =>
      match findBypassPattern query.data with
      | some desc =>
        { valid := false
          reason := some ("Query contains blocked pattern: " ++ desc)
          queryType := some "BLOCKED_PATTERN" }
      | none => { valid := true, reason := none, queryType := some "SELECT" }

/-- `getQueryType`: CTE and SHOWPLAN special cases, else the first word. -/
def getQueryType (query : String) : String :=
  let normalized := normalizeQuery query.data
  if "WITH".data.isPrefixOf normalized then "CTE"
  else if "SET SHOWPLAN".data.isPrefixOf normalized then "SHOWPLAN"
  else String.mk (normalized.takeWhile fun c => c != ' ')

/-- Scalar JavaScript values that may appear in a ParamMap.  `otherV`
stands for any runtime value outside the declared
string or number or boolean or null union (reachable only past the
TypeScript type checker).  JavaScript numbers are modelled as rationals;
the `Number.isInteger` test is the predicate `den = 1`. -/
inductive JsValue where
  | nullV
  | strV (s : String)
  | numV (x : Rat)
  | boolV (b : Bool)
  | otherV
deriving Repr, DecidableEq

/-- The mssql bind types a parameter can be mapped to by `getSqlType`. -/
inductive SqlType where
  | NVarChar
  | BigInt
  | Float
  | Bit
deriving Repr, DecidableEq

/-- `getSqlType` of `execute.ts`, branch for branch; the final branch is
the unconditional `return sql.NVarChar` fallback of the source. -/
def getSqlType : JsValue → SqlType
  | .nullV => .NVarChar
  | .strV _ => .NVarChar
  | .numV x => if x.den = 1 then .BigInt else .Float
  | .boolV _ => .Bit
  | .otherV => .NVarChar

/-- Substring containment (JavaScript `String.prototype.includes`). -/
def containsSub (pat s : List Char) : Bool :=
  (List.range (s.length + 1)).any fun i => pat.isPrefixOf (s.drop i)

/-- A thrown JavaScript value as classified by `getErrorMessage`: an
`McpError` (with its class name and message), some other `Error`, or a
thrown non-Error value. -/
inductive ThrownValue where
  | mcp (name message : String)
  | jsError (message : String)
  | nonError
deriving Repr, DecidableEq

/-- A string holding one apostrophe. -/
def sqS : String := String.mk [squote]

/-- The literal head of the login regex: `Login failed for user` followed
by a space and an opening apostrophe. -/
def loginLit : List Char := "Login failed for user ".data ++ [squote]

/-- The replacement text of the login redaction: the literal head, three
asterisks, a closing apostrophe. -/
def loginMarker : List Char := loginLit ++ "***".data ++ [squote]

/-- Length of the (case-sensitive) login-failure match starting at
position `i`, if any: the literal head, then the longest apostrophe-free
run, then a closing apostrophe. -/
def loginMatchLen (s : List Char) (i : Nat) : Option Nat :=
  if loginLit.isPrefixOf (s.drop i) then
    let rest := (s.drop i).drop loginLit.length
    let user := rest.takeWhile fun c => c != squote
    if user.length < rest.length then some (loginLit.length + user.length + 1) else none
  else none

/-- The first (non-global) replace of the login-failure regex: only the
leftmost match is replaced by the redaction marker. -/
def loginReplace (s : List Char) : List Char :=
  match (List.range s.length).find? (fun i => (loginMatchLen s i).isSome) with
  | some i =>
    match loginMatchLen s i with
    | some n => s.take i ++ loginMarker ++ s.drop (i + n)
    | none => s
  | none => s

/-- The password pattern: the literal `password` (case-insensitive). -/
def pwPat : List Char := "password".data

/-- The fixed replacement `password=***`. -/
def pwMarker : List Char := "password=***".data

/-- The global case-insensitive replace of `password[^,]*` by
`password=***`: each match runs from a case-insensitive `password`
through the following comma-free run; scanning resumes after the
replaced span.  Fuel-indexed; `fuel = length` suffices. -/
def pwReplaceAux : Nat → List Char → List Char
  | 0, s => s
  | _ + 1, [] => []
  | fuel + 1, c :: rest =>
    if matchesCI pwPat (c :: rest) then
      pwMarker ++ pwReplaceAux fuel ((rest.drop 7).dropWhile fun x => x != ',')
    else c :: pwReplaceAux fuel rest

def pwReplace (s : List Char) : List Char := pwReplaceAux s.length s

/-- `getErrorMessage` of `errors.ts`: `McpError` messages are returned
verbatim; other `Error` messages get the login replace then the password
replace; non-Error values map to a fixed message. -/
def getErrorMessage : ThrownValue → String
  | .mcp _ message => message
  | .jsError message => String.mk (pwReplace (loginReplace message.data))
  | .nonError => "An unknown error occurred"

/-- Success-or-error outcome of a pipeline call (a resolved value or a
thrown error). -/
inductive PipeResult (ε : Type) (α : Type) where
  | error (e : ε)
  | ok (v : α)
deriving Repr, DecidableEq

/-- Errors raised by the execution pipeline (`errors.ts` classes); a
`driver` error is the untouched thrown value rethrown by the source. -/
inductive CoreError where
  | queryValidation (reason : String)
  | readOnlyViolation (blockedOp : String)
  | timeoutErr
  | driver (e : ThrownValue)
deriving Repr, DecidableEq

/-- The rows/rowCount part of `QueryResult` (`types.ts`); the `fields`
metadata and the wall-clock `duration` are environment-dependent and are
not modelled. -/
structure QueryResult (α : Type) where
  rows : List α
  rowCount : Nat
deriving Repr, DecidableEq

/-- The `affectedRows` part of the write result; wall-clock `duration`
is not modelled. -/
structure WriteResult where
  affectedRows : Nat
deriving Repr, DecidableEq

/-- The database driver interaction of one dispatched request: the
`recordset` and `rowsAffected` a successful `request.query` resolves
with, or the value it rejects with. -/
inductive DriverOutcome (α : Type) where
  | ok (recordset : List α) (rowsAffected : List Nat)
  | fail (e : ThrownValue)
deriving Repr, DecidableEq

/-- Result of one `executeQuery` call together with the number of
pool/driver interactions it performed (0 = no pool acquired, nothing
dispatched). -/
structure ExecOutcome (α : Type) where
  result : PipeResult CoreError (QueryResult α)
  driverCalls : Nat
deriving Repr, DecidableEq

/-- `executeQuery` of `execute.ts`.  In READONLY mode an invalid query
raises `QueryValidationError` before any pool access.  On success the
rows are `recordset.slice(0, maxRows)` and `rowCount` the untruncated
length.  On driver failure the message classification uses the sanitized
message, but the rethrown error is the ORIGINAL thrown value.  The bind
types of `params` (via `getSqlType`) only shape the outgoing request and
do not influence the modelled result. -/
def executeQuery {α : Type} (readonly : Bool) (query : String)
    (params : List (String × JsValue)) (maxRows : Nat)
    (driver : DriverOutcome α) : ExecOutcome α :=
  if readonly && !(validateQuery query).valid then
    { result := .error (.queryValidation
        (((validateQuery query).reason).getD "Query validation failed"))
      driverCalls := 0 }
  else
    match driver with
    | .ok recordset _ =>
      { result := .ok { rows := recordset.take maxRows, rowCount := recordset.length }
        driverCalls := 1 }
    | .fail e =>
      let message := getErrorMessage e
      if containsSub "timeout".data message.data || containsSub "Timeout".data message.data then
        { result := .error .timeoutErr, driverCalls := 1 }
      else
        { result := .error (.driver e), driverCalls := 1 }

/-- Result of one `executeWrite` call with its driver-interaction count. -/
structure WriteOutcome where
  result : PipeResult CoreError WriteResult
  driverCalls : Nat
deriving Repr, DecidableEq

/-- `executeWrite` of `execute.ts`: in READONLY mode it throws
`ReadOnlyViolationError` as its very first statement — before the
validator could run and before any pool access; otherwise it dispatches
and reports `rowsAffected[0] || 0`. -/
def executeWrite {α : Type} (readonly : Bool) (query : String)
    (params : List (String × JsValue)) (driver : DriverOutcome α) : WriteOutcome :=
  if readonly then
    { result := .error (.readOnlyViolation "Write operations are not allowed in READONLY mode")
      driverCalls := 0 }
  else
    match driver with
    | .ok _ rowsAffected =>
      { result := .ok { affectedRows := rowsAffected.headD 0 }, driverCalls := 1 }
    | .fail e => { result := .error (.driver e), driverCalls := 1 }

/-- `buildInsertQuery` of `execute.ts`: the SQL text is assembled from
the schema, the table and the keys of `data` only; the values travel in
the returned parameter map. -/
def buildInsertQuery (schema table : String) (data : List (String × JsValue)) :
    String × List (String × JsValue) :=
  let columns := data.map Prod.fst
  let paramNames := columns.map fun c => "@" ++ c
  let query :=
    "\n    INSERT INTO [" ++ schema ++ "].[" ++ table ++ "] (["
      ++ String.intercalate "], [" columns ++ "])\n    VALUES ("
      ++ String.intercalate ", " paramNames
      ++ ");\n    SELECT SCOPE_IDENTITY() AS insertedId;\n  "
  (query, data)

end McpSql


namespace McpSql

/-! ### Supporting lemmas -/

theorem toUpper_eq_space {c : Char} (h : Char.toUpper c = ' ') : c = ' ' := by
  unfold Char.toUpper at h
  by_cases hg : c.toNat ≥ 97 ∧ c.toNat ≤ 122
  · rw [if_pos hg] at h
    exfalso
    have hv : (c.toNat - 32).isValidChar := Or.inl (by omega)
    rw [Char.ofNat, dif_pos hv] at h
    have h2 := congrArg Char.toNat h
    have h3 : (Char.ofNatAux (c.toNat - 32) hv).toNat = c.toNat - 32 := rfl
    have h4 : (' ' : Char).toNat = 32 := rfl
    rw [h3, h4] at h2
    omega
  · rw [if_neg hg] at h
    exact h

theorem dropWhile_head_not_or (p : Char → Bool) (l : List Char) :
    l.dropWhile p = [] ∨ ∃ c t, l.dropWhile p = c :: t ∧ p c = false := by
  induction l with
  | nil => left; rfl
  | cons c t ih =>
    by_cases hc : p c
    · simpa [List.dropWhile_cons, hc] using ih
    · right
      exact ⟨c, t, by simp [List.dropWhile_cons, hc], by simp [hc]⟩

theorem trimList_head (s : List Char) :
    trimList s = [] ∨ ∃ c t, trimList s = c :: t ∧ isJsSpace c = false := by
  unfold trimList
  rcases dropWhile_head_not_or isJsSpace s with h | ⟨c, t, hd, hc⟩
  · left; simp [h]
  · rw [hd]
    obtain ⟨u, hu⟩ := List.dropWhile_suffix (l := (c :: t).reverse) isJsSpace
    cases hrev : (((c :: t).reverse).dropWhile isJsSpace).reverse with
    | nil => left; rfl
    | cons c2 t2 =>
      right
      refine ⟨c2, t2, rfl, ?_⟩
      have h2 : c :: t = (((c :: t).reverse).dropWhile isJsSpace).reverse ++ u.reverse := by
        have h3 := congrArg List.reverse hu
        simpa using h3.symm
      rw [hrev] at h2
      simp only [List.cons_append] at h2
      injection h2 with hce _
      rw [← hce]
      exact hc

theorem normalizeQuery_firstWord_ne_nil (s : List Char) (h : ¬ (normalizeQuery s).isEmpty) :
    (normalizeQuery s).takeWhile (fun c => c != ' ') ≠ [] := by
  unfold normalizeQuery at *
  rcases trimList_head (collapseWs (removeComments s)) with h0 | ⟨c, t, hd, hc⟩
  · rw [h0] at h
    simp at h
  · rw [hd]
    have hne : (Char.toUpper c != ' ') = true := by
      refine bne_iff_ne.mpr ?_
      intro he
      rw [toUpper_eq_space he] at hc
      simp [isJsSpace] at hc
    simp [List.takeWhile_cons, hne]

theorem string_mk_ne_empty {l : List Char} (h : l ≠ []) : String.mk l ≠ "" := by
  intro he
  apply h
  have := congrArg String.data he
  simpa using this

theorem append_left_ne_empty {a b : String} (h : a.data ≠ []) : a ++ b ≠ "" := by
  intro he
  have h2 := congrArg String.data he
  rw [String.data_append] at h2
  simp at h2
  exact h h2.1

theorem validateQuery_valid_shape (q : String) (h : (validateQuery q).valid = true) :
    validateQuery q = ⟨true, none, some "SELECT"⟩ := by
  by_cases h1 : (normalizeQuery q.data).isEmpty
  · simp [validateQuery, h1] at h
  · by_cases h2 : startsWithAllowed (normalizeQuery q.data)
    · cases h3 : findBlockedKeyword (normalizeQuery q.data) with
      | some kw => simp [validateQuery, h1, h2, h3] at h
      | none =>
        cases h4 : findBypassPattern q.data with
        | some d => simp [validateQuery, h1, h2, h3, h4] at h
        | none => simp [validateQuery, h1, h2, h3, h4]
    · simp [validateQuery, h1, h2] at h

end McpSql

namespace McpSql

theorem matchesCI_length {pat s : List Char} (h : matchesCI pat s = true) :
    pat.length ≤ s.length := by
  induction pat generalizing s with
  | nil => simp
  | cons p ps ih =>
    cases s with
    | nil => simp [matchesCI] at h
    | cons c cs =>
      simp only [matchesCI, Bool.and_eq_true] at h
      have := ih h.2
      simp only [List.length_cons]
      omega

theorem dropWhile_length_le (p : Char → Bool) (l : List Char) :
    (l.dropWhile p).length ≤ l.length := by
  induction l with
  | nil => simp
  | cons c t ih =>
    by_cases hc : p c
    · rw [List.dropWhile_cons, if_pos hc]
      simp only [List.length_cons]
      omega
    · rw [List.dropWhile_cons, if_neg hc]

theorem matchesCI_pw_transfer : ∀ (fuel : Nat) (s frag : List Char),
    (frag.all fun x => x.toLower != 'p') = true →
    matchesCI frag (pwReplaceAux fuel s) = true → matchesCI frag s = true := by
  intro fuel
  induction fuel with
  | zero =>
    intro s frag _ h
    simpa only [pwReplaceAux] using h
  | succ fuel ih =>
    intro s frag hfrag h
    cases s with
    | nil => simpa only [pwReplaceAux] using h
    | cons c rest =>
      simp only [pwReplaceAux] at h
      by_cases hg : matchesCI pwPat (c :: rest)
      · rw [if_pos hg] at h
        cases frag with
        | nil => rfl
        | cons f fs =>
          exfalso
          rw [show pwMarker = 'p' :: "assword=***".data from rfl, List.cons_append] at h
          simp only [matchesCI, Bool.and_eq_true] at h
          have h1 := h.1
          rw [show ('p' : Char).toLower = 'p' from by decide] at h1
          have h2 : f.toLower ≠ 'p' := by
            simp only [List.all_cons, Bool.and_eq_true, bne_iff_ne] at hfrag
            exact hfrag.1
          exact h2 (eq_of_beq h1).symm
      · rw [if_neg hg] at h
        cases frag with
        | nil => rfl
        | cons f fs =>
          simp only [matchesCI, Bool.and_eq_true] at h ⊢
          refine ⟨h.1, ih rest fs ?_ h.2⟩
          simp only [List.all_cons, Bool.and_eq_true] at hfrag
          exact hfrag.2

theorem matchesCI_pw_cons_append {c : Char} {l B : List Char}
    (hc : c.toLower ≠ 'p') : matchesCI pwPat ((c :: l) ++ B) = false := by
  rw [List.cons_append, show pwPat = 'p' :: "assword".data from rfl]
  simp only [matchesCI]
  have hb : (c.toLower == ('p' : Char).toLower) = false := by
    rw [show ('p' : Char).toLower = 'p' from by decide]
    exact beq_eq_false_iff_ne.mpr hc
  simp only [hb, Bool.false_and]

theorem matchesCI_pw_ne_append {x B : List Char} (hx : x ≠ [])
    (hh : (x.headD ' ').toLower ≠ 'p') : matchesCI pwPat (x ++ B) = false := by
  cases x with
  | nil => exact absurd rfl hx
  | cons c l => exact matchesCI_pw_cons_append (by simpa using hh)

theorem pwReplaceAux_redacts : ∀ (fuel : Nat) (s : List Char), s.length ≤ fuel → ∀ i : Nat,
    matchesCI pwPat ((pwReplaceAux fuel s).drop i) = true →
    "=***".data.isPrefixOf ((pwReplaceAux fuel s).drop (i + 8)) = true := by
  intro fuel
  induction fuel with
  | zero =>
    intro s hs i h
    have hnil : s = [] := List.length_eq_zero.mp (Nat.le_zero.mp hs)
    subst hnil
    simp only [pwReplaceAux, List.drop_nil] at h
    simp [matchesCI, show pwPat = 'p' :: "assword".data from rfl] at h
  | succ fuel ih =>
    intro s hs i h
    cases s with
    | nil =>
      simp only [pwReplaceAux, List.drop_nil] at h
      simp [matchesCI, show pwPat = 'p' :: "assword".data from rfl] at h
    | cons c rest =>
      simp only [pwReplaceAux] at h ⊢
      simp only [List.length_cons] at hs
      by_cases hg : matchesCI pwPat (c :: rest)
      · rw [if_pos hg] at h ⊢
        have hlen : 7 ≤ rest.length := by
          have h5 := matchesCI_length hg
          simp only [show pwPat.length = 8 from by decide, List.length_cons] at h5
          omega
        have hlen2 : ((rest.drop 7).dropWhile fun x => x != ',').length ≤ fuel := by
          have h5 := dropWhile_length_le (fun x => x != ',') (rest.drop 7)
          have h6 : (rest.drop 7).length = rest.length - 7 := by simp
          omega
        have hm12 : pwMarker.length = 12 := by decide
        rcases Nat.lt_or_ge i 12 with h12 | h12
        · cases i with
          | zero =>
            rw [List.drop_append_eq_append_drop, hm12]
            norm_num
            exact List.prefix_append _ _
          | succ j =>
            exfalso
            rw [List.drop_append_eq_append_drop, hm12,
              show j + 1 - 12 = 0 from by omega, List.drop_zero] at h
            have hx : pwMarker.drop (j + 1) ≠ []
                ∧ ((pwMarker.drop (j + 1)).headD ' ').toLower ≠ 'p' := by
              have hj : j < 11 := by omega
              interval_cases j <;> exact ⟨by decide, by decide⟩
            rw [matchesCI_pw_ne_append hx.1 hx.2] at h
            exact Bool.false_ne_true h
        · rw [List.drop_append_eq_append_drop, hm12,
            List.drop_of_length_le (by omega : pwMarker.length ≤ i), List.nil_append] at h
          rw [List.drop_append_eq_append_drop, hm12,
            List.drop_of_length_le (by omega : pwMarker.length ≤ i + 8), List.nil_append]
          have harith : i + 8 - 12 = (i - 12) + 8 := by omega
          rw [harith]
          exact ih _ hlen2 (i - 12) h
      · rw [if_neg hg] at h ⊢
        cases i with
        | zero =>
          exfalso
          rw [List.drop_zero] at h
          rw [show pwPat = 'p' :: "assword".data from rfl] at h hg
          simp only [matchesCI, Bool.and_eq_true] at h hg
          exact hg ⟨h.1, matchesCI_pw_transfer fuel rest "assword".data (by decide) h.2⟩
        | succ j =>
          rw [List.drop_succ_cons] at h
          rw [show j + 1 + 8 = (j + 8) + 1 from by omega, List.drop_succ_cons]
          exact ih rest (by omega) j h

theorem pwReplace_redacts (s : List Char) (i : Nat)
    (h : matchesCI pwPat ((pwReplace s).drop i) = true) :
    "=***".data.isPrefixOf ((pwReplace s).drop (i + 8)) = true :=
  pwReplaceAux_redacts s.length s (Nat.le_refl _) i h

end McpSql

namespace McpSql

/-! ### Claim theorems -/

/-- C1 (code bug, evaluated at the failing input): the read-only gate is
not sound with respect to the comment-stripped form.  For the input
below, `validateQuery` answers valid, although the comment-stripped,
normalized, uppercased text matches the OPENQUERY bypass pattern — the
bypass scan runs on the raw text, where the inline comment breaks the
pattern, while the engine treats the comment as whitespace and would
execute OPENQUERY. -/
theorem validateQuery_comment_hidden_bypass :
    (validateQuery "SELECT 1 FROM OPENQUERY/**/(S)").valid = true
    ∧ findBypassPattern (normalizeQuery ("SELECT 1 FROM OPENQUERY/**/(S)").data)
        = some "OPENQUERY is not allowed" := by decide

/-- C2 (code bug, evaluated at the failing input): the verdict is not a
function of the comment-stripped text.  A stacked-query fragment hidden
inside a block comment flips the verdict, because `findBypassPattern` is
applied to the raw input rather than to the stripped text. -/
theorem validateQuery_raw_scan_divergence :
    (validateQuery "SELECT 1 /* ; DROP */").valid = false
    ∧ (validateQuery (String.mk (removeComments ("SELECT 1 /* ; DROP */").data))).valid
        = true := by decide

/-- C3 (confirmed): with the read-only policy on, `executeWrite` returns
the `ReadOnlyViolationError` outcome with zero driver interactions, for
every SQL text, parameter map and driver behaviour — the early return
precedes the validator and any pool access. -/
theorem executeWrite_readonly_unconditional (α : Type) (q : String)
    (ps : List (String × JsValue)) (d : DriverOutcome α) :
    executeWrite true q ps d
      = { result := PipeResult.error (CoreError.readOnlyViolation
            "Write operations are not allowed in READONLY mode"),
          driverCalls := 0 } := rfl

/-- C4 (confirmed): for a driver response of N rows and a caller limit L,
`executeQuery` returns the first min(L, N) rows with `rowCount = N`;
when L < N the rows are truncated to length L and `rowCount` exceeds the
returned length, so truncation is detectable. -/
theorem executeQuery_row_truncation (α : Type) (rows : List α) (ra : List Nat)
    (q : String) (ps : List (String × JsValue)) (L : Nat) (ro : Bool)
    (h : ro = true → (validateQuery q).valid = true) :
    (executeQuery ro q ps L (DriverOutcome.ok rows ra)).result
        = PipeResult.ok { rows := rows.take L, rowCount := rows.length }
    ∧ (rows.take L).length = min L rows.length
    ∧ (L < rows.length → (rows.take L).length = L ∧ (rows.take L).length < rows.length) := by
  have hg : (ro && !(validateQuery q).valid) = false := by
    cases ro
    · simp
    · simp [h rfl]
  refine ⟨?_, ?_, ?_⟩
  · simp [executeQuery, hg]
  · simp [List.length_take]
  · intro hlt
    simp only [List.length_take]
    omega

/-- Witness for C4: a concrete read-only run with 3 driver rows and
limit 2 — both hypotheses discharged at the call site. -/
theorem executeQuery_row_truncation_witness :
    ((true : Bool) = true → (validateQuery "SELECT 1").valid = true)
    ∧ ((executeQuery true "SELECT 1" [] 2 (DriverOutcome.ok [10, 20, 30] [])).result
          = PipeResult.ok { rows := [10, 20], rowCount := 3 }
      ∧ ([10, 20, 30].take 2).length = min 2 3
      ∧ (2 < 3 → ([10, 20, 30].take 2).length = 2 ∧ ([10, 20, 30].take 2).length < 3)) :=
  ⟨fun _ => by decide,
   executeQuery_row_truncation Nat [10, 20, 30] [] "SELECT 1" [] 2 true (fun _ => by decide)⟩

/-- C5 (confirmed): word-boundary correctness of the blocklist scan — a
blocked word inside a longer identifier does not trigger, while a
genuine blocked keyword is reported. -/
theorem validateQuery_word_boundary :
    (validateQuery "SELECT updated_at FROM users").valid = true
    ∧ (validateQuery "SELECT 1; UPDATE users SET x=1").valid = false
    ∧ (validateQuery "SELECT 1; UPDATE users SET x=1").queryType = some "UPDATE" := by
  decide

/-- C6 (counterexample): a WITH query that passes every check still gets
`queryType = "SELECT"` from `validateQuery`, not `"CTE"` as the claim
states — the CTE category only exists in the separate `getQueryType`. -/
theorem validateQuery_cte_counterexample :
    (validateQuery "WITH cte AS (SELECT 1) SELECT 2").valid = true
    ∧ (validateQuery "WITH cte AS (SELECT 1) SELECT 2").queryType = some "SELECT"
    ∧ "WITH".data.isPrefixOf (normalizeQuery ("WITH cte AS (SELECT 1) SELECT 2").data) = true
    ∧ getQueryType "WITH cte AS (SELECT 1) SELECT 2" = "CTE" := by decide

/-- C6 (amended): every verdict with `valid = true` carries the fixed
`queryType "SELECT"` regardless of the leading keyword; the specific
leading-keyword category is produced by the separate `getQueryType`,
which answers `"CTE"` for every query whose normalized text starts with
WITH.  (Only this implication holds: the first-word fallthrough of
`getQueryType` can also answer `"CTE"` for a query whose first word is
the identifier CTE.) -/
theorem validateQuery_queryType_amended :
    (∀ q : String, (validateQuery q).valid = true →
        (validateQuery q).queryType = some "SELECT")
    ∧ (∀ q : String, "WITH".data.isPrefixOf (normalizeQuery q.data) = true →
        getQueryType q = "CTE") := by
  constructor
  · intro q h
    rw [validateQuery_valid_shape q h]
  · intro q h
    simp [getQueryType, h]

/-- Witness for C6 (amended), at a concrete WITH query. -/
theorem validateQuery_queryType_amended_witness :
    ((validateQuery "WITH w AS (SELECT 1) SELECT 3").valid = true
      ∧ (validateQuery "WITH w AS (SELECT 1) SELECT 3").queryType = some "SELECT")
    ∧ ("WITH".data.isPrefixOf (normalizeQuery ("WITH w AS (SELECT 1) SELECT 3").data) = true
      ∧ getQueryType "WITH w AS (SELECT 1) SELECT 3" = "CTE") :=
  ⟨⟨by decide, validateQuery_queryType_amended.1 _ (by decide)⟩,
   ⟨by decide, validateQuery_queryType_amended.2 _ (by decide)⟩⟩

/-- C7 (counterexample): not every message crossing the outward boundary
is redacted.  A read-only rejection of the query `PASSWORD=hunter2`
produces a `QueryValidationError` whose reason embeds the query text;
`getErrorMessage` returns McpError messages verbatim, so the surfaced
message contains a case-insensitive password fragment that is not
followed by the `=***` redaction marker (the fragment starts at
index 51; index 59 is right past it). -/
theorem getErrorMessage_mcp_counterexample :
    (executeQuery true "PASSWORD=hunter2" [] 100 (DriverOutcome.ok ([] : List Unit) [])).result
      = PipeResult.error (CoreError.queryValidation
          "Query must start with SELECT or WITH (CTE). Found: PASSWORD=HUNTER2")
    ∧ getErrorMessage (ThrownValue.mcp "QueryValidationError"
          "Query must start with SELECT or WITH (CTE). Found: PASSWORD=HUNTER2")
        = "Query must start with SELECT or WITH (CTE). Found: PASSWORD=HUNTER2"
    ∧ matchesCI pwPat
        (("Query must start with SELECT or WITH (CTE). Found: PASSWORD=HUNTER2").data.drop 51)
        = true
    ∧ "=***".data.isPrefixOf
        (("Query must start with SELECT or WITH (CTE). Found: PASSWORD=HUNTER2").data.drop 59)
        = false := by decide

/-- C7 (amended): sanitization applies to non-McpError errors — in the
sanitized message every case-insensitive occurrence of the password
pattern is immediately followed by the fixed marker `=***`, and the
first login-failure username is replaced — while McpError messages pass
the boundary verbatim. -/
theorem getErrorMessage_sanitize_amended :
    (∀ name message, getErrorMessage (ThrownValue.mcp name message) = message)
    ∧ (∀ (message : String) (i : Nat),
        matchesCI pwPat ((getErrorMessage (ThrownValue.jsError message)).data.drop i) = true →
        "=***".data.isPrefixOf
          ((getErrorMessage (ThrownValue.jsError message)).data.drop (i + 8)) = true)
    ∧ getErrorMessage (ThrownValue.jsError ("Login failed for user " ++ sqS ++ "sa" ++ sqS
        ++ ". password=hunter2"))
      = "Login failed for user " ++ sqS ++ "***" ++ sqS ++ ". password=***" := by
  refine ⟨fun _ _ => rfl, ?_, by decide⟩
  intro message i h
  exact pwReplace_redacts (loginReplace message.data) i h

/-- Witness for C7 (amended): the sanitized form of `password=x` carries
the marker right after its password occurrence. -/
theorem getErrorMessage_sanitize_amended_witness :
    matchesCI pwPat ((getErrorMessage (ThrownValue.jsError "password=x")).data.drop 0) = true
    ∧ "=***".data.isPrefixOf
        ((getErrorMessage (ThrownValue.jsError "password=x")).data.drop (0 + 8)) = true :=
  ⟨by decide, getErrorMessage_sanitize_amended.2.1 "password=x" 0 (by decide)⟩

/-- C8 (counterexample): for a runtime value outside the declared union
the source does not fail fast — it silently falls back to the
variable-length text type (the function has no error path at all). -/
theorem getSqlType_fallback_counterexample :
    getSqlType JsValue.otherV = SqlType.NVarChar := by decide

/-- C8 (amended): the binder maps null and strings to NVarChar,
integer-valued numbers to BigInt, non-integer numbers to Float, booleans
to Bit, and any value outside the union to the NVarChar fallback
(silently, with no error). -/
theorem getSqlType_mapping_amended :
    getSqlType JsValue.nullV = SqlType.NVarChar
    ∧ (∀ s, getSqlType (JsValue.strV s) = SqlType.NVarChar)
    ∧ (∀ x : Rat, x.den = 1 → getSqlType (JsValue.numV x) = SqlType.BigInt)
    ∧ (∀ x : Rat, x.den ≠ 1 → getSqlType (JsValue.numV x) = SqlType.Float)
    ∧ (∀ b, getSqlType (JsValue.boolV b) = SqlType.Bit)
    ∧ getSqlType JsValue.otherV = SqlType.NVarChar := by
  refine ⟨rfl, fun _ => rfl, ?_, ?_, fun _ => rfl, rfl⟩
  · intro x hx
    simp [getSqlType, hx]
  · intro x hx
    simp [getSqlType, hx]

/-- Witness for C8 (amended), at an integer and a non-integer rational. -/
theorem getSqlType_mapping_amended_witness :
    ((3 : Rat).den = 1 ∧ getSqlType (JsValue.numV 3) = SqlType.BigInt)
    ∧ ((mkRat 3 2).den ≠ 1 ∧ getSqlType (JsValue.numV (mkRat 3 2)) = SqlType.Float) :=
  ⟨⟨by decide, getSqlType_mapping_amended.2.2.1 3 (by decide)⟩,
   ⟨by decide, getSqlType_mapping_amended.2.2.2.1 (mkRat 3 2) (by decide)⟩⟩

/-- C9 (counterexample): a value made of SQL metacharacters can occur in
the built SQL text — the value `;` of column `a` is a literal substring
of the fixed INSERT scaffold (which ends statements with semicolons), so
the claim as stated fails even though the value is never interpolated. -/
theorem buildInsertQuery_metachar_counterexample :
    containsSub ";".data (buildInsertQuery "dbo" "users" [("a", JsValue.strV ";")]).1.data
        = true
    ∧ (buildInsertQuery "dbo" "users" [("a", JsValue.strV ";")]).2
        = [("a", JsValue.strV ";")] := by decide

/-- C9 (amended): the SQL text depends only on the schema, the table and
the column names — never on the values, which are returned untouched in
the parameter map; in particular the canonical injection value does not
occur in the text built over ordinary identifiers while it does appear
in the parameter map. -/
theorem buildInsertQuery_amended :
    (∀ (schema table : String) (d₁ d₂ : List (String × JsValue)),
        d₁.map Prod.fst = d₂.map Prod.fst →
        (buildInsertQuery schema table d₁).1 = (buildInsertQuery schema table d₂).1)
    ∧ (∀ schema table d, (buildInsertQuery schema table d).2 = d)
    ∧ (containsSub (sqS ++ "; DROP TABLE users; --").data
          (buildInsertQuery "dbo" "users"
            [("name", JsValue.strV (sqS ++ "; DROP TABLE users; --"))]).1.data = false
       ∧ (buildInsertQuery "dbo" "users"
            [("name", JsValue.strV (sqS ++ "; DROP TABLE users; --"))]).2
          = [("name", JsValue.strV (sqS ++ "; DROP TABLE users; --"))]) := by
  refine ⟨?_, fun _ _ _ => rfl, by decide, rfl⟩
  intro schema table d₁ d₂ h
  simp only [buildInsertQuery]
  rw [h]

/-- Witness for C9 (amended): two maps with the same single key and
different values produce the same SQL text. -/
theorem buildInsertQuery_amended_witness :
    ([("a", JsValue.strV "x")].map Prod.fst = [("a", JsValue.nullV)].map Prod.fst)
    ∧ (buildInsertQuery "s" "t" [("a", JsValue.strV "x")]).1
        = (buildInsertQuery "s" "t" [("a", JsValue.nullV)]).1 :=
  ⟨by decide, buildInsertQuery_amended.1 "s" "t" _ _ (by decide)⟩

/-- C10 (confirmed): verdict well-formedness — an invalid verdict always
carries a non-empty reason and a non-empty queryType; a valid verdict
has no reason and queryType `"SELECT"`. -/
theorem validateQuery_verdict_wellformed (q : String) :
    ((validateQuery q).valid = false →
      ∃ r t, (validateQuery q).reason = some r ∧ (validateQuery q).queryType = some t
        ∧ r ≠ "" ∧ t ≠ "")
    ∧ ((validateQuery q).valid = true →
      (validateQuery q).reason = none ∧ (validateQuery q).queryType = some "SELECT") := by
  constructor
  · intro hf
    by_cases h1 : (normalizeQuery q.data).isEmpty
    · refine ⟨"Query is empty", "EMPTY", ?_, ?_, by decide, by decide⟩
      · simp [validateQuery, h1]
      · simp [validateQuery, h1]
    · by_cases h2 : startsWithAllowed (normalizeQuery q.data)
      · cases h3 : findBlockedKeyword (normalizeQuery q.data) with
        | some kw =>
          refine ⟨"Keyword \"" ++ kw ++ "\" is not allowed in READONLY mode", kw,
            ?_, ?_, ?_, ?_⟩
          · simp [validateQuery, h1, h2, h3]
          · simp [validateQuery, h1, h2, h3]
          · apply append_left_ne_empty
            rw [String.data_append]
            intro hnil
            exact (by decide : ("Keyword \"" : String).data ≠ [])
              (List.append_eq_nil.mp hnil).1
          · have hmem := List.mem_of_find?_eq_some h3
            have hall : ∀ x ∈ BLOCKED_KEYWORDS, x ≠ "" := by decide
            exact hall kw hmem
        | none =>
          cases h4 : findBypassPattern q.data with
          | some d =>
            refine ⟨"Query contains blocked pattern: " ++ d, "BLOCKED_PATTERN",
              ?_, ?_, ?_, by decide⟩
            · simp [validateQuery, h1, h2, h3, h4]
            · simp [validateQuery, h1, h2, h3, h4]
            · apply append_left_ne_empty
              decide
          | none =>
            exfalso
            have hv : (validateQuery q).valid = true := by
              simp [validateQuery, h1, h2, h3, h4]
            rw [hv] at hf
            simp at hf
      · refine ⟨"Query must start with SELECT or WITH (CTE). Found: "
            ++ String.mk ((normalizeQuery q.data).takeWhile fun c => c != ' '),
          String.mk ((normalizeQuery q.data).takeWhile fun c => c != ' '),
          ?_, ?_, ?_, ?_⟩
        · simp [validateQuery, h1, h2]
        · simp [validateQuery, h1, h2]
        · apply append_left_ne_empty
          decide
        · exact string_mk_ne_empty (normalizeQuery_firstWord_ne_nil q.data h1)
  · intro ht
    rw [validateQuery_valid_shape q ht]
    exact ⟨rfl, rfl⟩

/-- Witness for C10, at one rejected and one accepted input. -/
theorem validateQuery_verdict_wellformed_witness :
    ((validateQuery "DELETE FROM t").valid = false
      ∧ ∃ r t, (validateQuery "DELETE FROM t").reason = some r
          ∧ (validateQuery "DELETE FROM t").queryType = some t ∧ r ≠ "" ∧ t ≠ "")
    ∧ ((validateQuery "SELECT 9").valid = true
      ∧ (validateQuery "SELECT 9").reason = none
      ∧ (validateQuery "SELECT 9").queryType = some "SELECT") :=
  ⟨⟨by decide, (validateQuery_verdict_wellformed "DELETE FROM t").1 (by decide)⟩,
   ⟨by decide, (validateQuery_verdict_wellformed "SELECT 9").2 (by decide)⟩⟩

end McpSql
